import Mathlib

/-!
Verification of the recursive directory-search program (`src/main.rs`).

The embedding models:
* `std::io::Error` as a kind (`PermissionDenied`, `InvalidData`, other)
  together with its `to_string()` message;
* the two retry loops of `search_in_path` (directory listing via
  `fs::read_dir`, file reading via `fs::read_to_string`) as step functions
  over a node's sequence of successive I/O outcomes;
* the filesystem as a tree whose nodes carry those outcome sequences,
  with a dedicated constructor for a directory entry that errors during
  iteration (`ReadDir` yielding an `Err` item);
* `search_in_path` itself as a recursion over that tree, returning `none`
  when some retry loop never settles (the real program would loop forever
  there, which also blocks every ancestor's `join`);
* `Config::parse` and `main`, with `fs::canonicalize` as an oracle and a
  counter of its invocations, and the mpsc receiver drain as a function of
  the buffered messages and the number of live senders.
-/

namespace RecSearch

/-- The `std::io::ErrorKind` values that `search_in_path` distinguishes:
`PermissionDenied`, `InvalidData`, and one collective constructor for every
other kind (the `_` arms of the source's matches). -/
inductive ErrorKind where
  | permissionDenied
  | invalidData
  | other
deriving DecidableEq, Repr

/-- A `std::io::Error`: its `kind()` together with its `to_string()` message. -/
structure IoError where
  kind : ErrorKind
  msg : String
deriving DecidableEq, Repr

/-- Rust `hay.contains(pat)`: literal substring containment. -/
def strContains (hay pat : String) : Bool :=
  decide (pat.data <:+: hay.data)

/-- The source's resource-exhaustion test: `e.to_string().contains("os error 24")`. -/
def containsOsError24 (msg : String) : Bool :=
  strContains msg "os error 24"

/-- Outcome of one round of a retry loop: leave the loop with a value,
retry after the 1000 ns sleep, or abandon the node (`return`), recording
whether a diagnostic line was printed. -/
inductive LoopStep (α : Type) where
  | done (v : α)
  | retry
  | abandon (logged : Bool)
deriving DecidableEq, Repr

/-- One round of the directory-listing loop (`main.rs` lines 56-76): a
successful `fs::read_dir` leaves the loop; `PermissionDenied` prints and
returns; any other kind retries when the message contains "os error 24"
and otherwise prints and returns. -/
def dirListStep {α : Type} (r : Except IoError α) : LoopStep α :=
  match r with
  | .ok v => .done v
  | .error e =>
    match e.kind with
    | .permissionDenied => .abandon true
    | _ =>
      if containsOsError24 e.msg then .retry else .abandon true

/-- One round of the file-reading loop (`main.rs` lines 107-131): a
successful `fs::read_to_string` leaves the loop; `InvalidData` returns
silently (non-UTF-8 files are skipped without a message);
`PermissionDenied` prints and returns; any other kind retries when the
message contains "os error 24" and otherwise prints and returns. -/
def fileReadStep {α : Type} (r : Except IoError α) : LoopStep α :=
  match r with
  | .ok v => .done v
  | .error e =>
    match e.kind with
    | .invalidData => .abandon false
    | .permissionDenied => .abandon true
    | .other =>
      if containsOsError24 e.msg then .retry else .abandon true

/-- Result of running a retry loop against a node's sequence of successive
I/O outcomes: the loop settles with a value, abandons the node (with or
without a diagnostic), or — when every listed outcome asks for a retry —
never settles, which models a retry loop that spins forever. -/
inductive LoopResult (α : Type) where
  | settled (v : α)
  | abandoned (logged : Bool)
  | neverSettles
deriving DecidableEq, Repr

/-- Run a retry loop: consume outcomes until one of them leaves the loop
or abandons the node. An exhausted outcome list means every attempt asked
for a retry, i.e. the loop never settles. -/
def runLoop {α : Type} (step : Except IoError α → LoopStep α) :
    List (Except IoError α) → LoopResult α
  | [] => .neverSettles
  | a :: rest =>
    match step a with
    | .done v => .settled v
    | .abandon logged => .abandoned logged
    | .retry => runLoop step rest

mutual
/-- A filesystem node as `search_in_path` observes it. A `file` node
carries the successive outcomes of `fs::read_to_string`; a `dir` node
carries the successive outcomes of `fs::read_dir` followed by its listed
entries; `entryErr` is a directory entry whose iteration step yielded an
`Err`, which the source logs and skips. -/
inductive FsTree where
  | file (name : String) (attempts : List (Except IoError String))
  | dir (name : String) (attempts : List (Except IoError Unit)) (entries : EntryList)
  | entryErr (e : IoError)

/-- The entries a successful `fs::read_dir` yields, in iteration order. -/
inductive EntryList where
  | nil
  | cons (head : FsTree) (tail : EntryList)
end

/-- The name of a node, as used to form the entry's path (`sub_path.path()`);
an errored entry yields no path. -/
def FsTree.name : FsTree → String
  | .file n _ => n
  | .dir n _ _ => n
  | .entryErr _ => ""

/-- `DirEntry::path()`: the parent path joined with the entry's name. -/
def childPath (p n : String) : String := p ++ "/" ++ n

mutual
/-- Shallow embedding of `search_in_path` (`main.rs` lines 45-139). The
returned list holds, in traversal order, the paths sent through the
channel (`tx.send`). `none` means the traversal never completes: some
retry loop spins forever, which also blocks every ancestor's `join`. -/
def search_in_path (path query : String) : FsTree → Option (List String)
  | .file _ attempts =>
    match runLoop fileReadStep attempts with
    | .settled contents => some (if strContains contents query then [path] else [])
    | .abandoned _ => some []
    | .neverSettles => none
  | .dir _ attempts entries =>
    match runLoop dirListStep attempts with
    | .settled _ => searchEntries path query entries
    | .abandoned _ => some []
    | .neverSettles => none
  | .entryErr _ => some []

/-- The directory case's fan-out: one spawned task per entry, every task
joined before the directory call returns. An errored entry is logged and
skipped (`continue`); the sends of the children are collected. -/
def searchEntries (path query : String) : EntryList → Option (List String)
  | .nil => some []
  | .cons t rest =>
    match search_in_path (childPath path t.name) query t, searchEntries path query rest with
    | some r, some rs => some (r ++ rs)
    | _, _ => none
end

mutual
/-- Whether the traversal of this subtree completes, i.e. no retry loop the
program actually enters spins forever. This is the "resource exhaustion is
not permanent" assumption: a loop that never settles is an unbounded
sequence of "os error 24" retries. -/
def completes : FsTree → Bool
  | .file _ attempts =>
    match runLoop fileReadStep attempts with
    | .neverSettles => false
    | _ => true
  | .dir _ attempts entries =>
    match runLoop dirListStep attempts with
    | .settled _ => completesEntries entries
    | .abandoned _ => true
    | .neverSettles => false
  | .entryErr _ => true

/-- `completes` for every entry of a listed directory. -/
def completesEntries : EntryList → Bool
  | .nil => true
  | .cons t rest => completes t && completesEntries rest
end

/-- Modelled from the spec: a view of one regular file of the tree — its
full path, the eventual outcome of reading it, and whether it is reachable,
i.e. every ancestor directory's listing eventually succeeded and the entry
itself was yielded without an iteration error. -/
structure FileView where
  path : String
  readOutcome : LoopResult String
  reachable : Bool
deriving DecidableEq, Repr

/-- Whether a directory's listing loop eventually succeeds. -/
def listingSettles (attempts : List (Except IoError Unit)) : Bool :=
  match runLoop dirListStep attempts with
  | .settled _ => true
  | _ => false

mutual
/-- Modelled from the spec: every regular file under a node, with its full
path, its eventual read outcome, and its reachability. -/
def filesUnder (path : String) (reach : Bool) : FsTree → List FileView
  | .file _ attempts => [⟨path, runLoop fileReadStep attempts, reach⟩]
  | .dir _ attempts entries =>
    filesUnderEntries path (reach && listingSettles attempts) entries
  | .entryErr _ => []

/-- `filesUnder` for every entry of a directory. -/
def filesUnderEntries (path : String) (reach : Bool) : EntryList → List FileView
  | .nil => []
  | .cons t rest =>
    filesUnder (childPath path t.name) reach t ++ filesUnderEntries path reach rest
end

/-- Modelled from the spec: a file is text-readable with contents containing
the query when its read loop eventually succeeds and the contents contain
the query as a literal substring. -/
def readsAsTextContaining (r : LoopResult String) (query : String) : Bool :=
  match r with
  | .settled c => strContains c query
  | _ => false

/-- Modelled from the spec (claim as stated): the paths of all regular,
text-readable files under the root whose contents contain the query,
whether or not they are reachable through readable directories. -/
def specMatchesClaim (path query : String) (t : FsTree) : List String :=
  ((filesUnder path true t).filter fun v => readsAsTextContaining v.readOutcome query).map
    FileView.path

/-- Modelled from the spec (amended claim): the paths of all regular,
text-readable files under the root whose contents contain the query and
that are reachable through successfully listed directories. -/
def specMatchesReachable (path query : String) (t : FsTree) : List String :=
  ((filesUnder path true t).filter fun v =>
      v.reachable && readsAsTextContaining v.readOutcome query).map FileView.path

/-- The parsed configuration: the canonicalized root path and the query. -/
structure Config where
  path : String
  query : String
deriving DecidableEq, Repr

/-- `Config::parse` (`main.rs` lines 25-40). `canon` models
`fs::canonicalize`, the only filesystem access during parsing; the second
component counts how many times it was invoked. The iterator's first item
(the program name) is discarded, the second is the path, the third the
query; anything after that is never requested. -/
def Config.parse (canon : String → Option String) (args : List String) :
    Except String Config × Nat :=
  match args with
  | _ :: path :: query :: _ =>
    (match canon path with
     | some p => (Except.ok ⟨p, query⟩, 1)
     | none => (Except.error "Given path is not valid", 1))
  | _ :: [_] => (Except.error "No text to search for. Usage: cargo run -- <PATH> <QUERY>", 0)
  | _ => (Except.error "No file path found. Usage: cargo run -- <PATH> <QUERY>", 0)

/-- `Receiver::iter` (`rx.iter()` in `main`): it yields every buffered
message; it terminates once every `Sender` handle has been dropped, and
with a live sender and an empty buffer it blocks (modelled as `none`,
an iteration that never terminates). -/
def rxIterPrints (liveSenders : Nat) (buffered : List String) : Option (List String) :=
  if liveSenders = 0 then some buffered else none

/-- How a run of `main` ends. -/
inductive MainOutcome where
  | exitedEarly (code : Nat)
  | hangs
  | completed (code : Nat) (printed : List String)
deriving DecidableEq, Repr

/-- `main` (`main.rs` lines 141-154). On a parse error it prints the
message and exits 1 before the channel exists or any search runs. On
success it runs `search_in_path` on the canonicalized path — the sender is
moved into the call and every clone is dropped when the joined children
finish, so zero senders are alive when `rx.iter()` starts — then prints
what the receiver yields and exits 0. `fs` maps the canonical root path to
the tree found there. -/
def mainRun (canon : String → Option String) (fs : String → FsTree)
    (args : List String) : MainOutcome :=
  match (Config.parse canon args).1 with
  | .error _ => .exitedEarly 1
  | .ok cfg =>
    match search_in_path cfg.path cfg.query (fs cfg.path) with
    | none => .hangs
    | some sent =>
      match rxIterPrints 0 sent with
      | some printed => .completed 0 printed
      | none => .hangs

mutual
/-- Below an unreachable point every file view is unreachable, so a filter
that requires reachability returns nothing. -/
theorem filter_filesUnder_false (path : String) (P : FileView → Bool) (t : FsTree) :
    ((filesUnder path false t).filter fun v => v.reachable && P v) = [] := by
  match t with
  | .file n attempts => simp [filesUnder]
  | .dir n attempts entries =>
    simpa [filesUnder] using filter_filesUnderEntries_false path P entries
  | .entryErr e => simp [filesUnder]

/-- List version of `filter_filesUnder_false`. -/
theorem filter_filesUnderEntries_false (path : String) (P : FileView → Bool) (l : EntryList) :
    ((filesUnderEntries path false l).filter fun v => v.reachable && P v) = [] := by
  match l with
  | .nil => simp [filesUnderEntries]
  | .cons t rest =>
    simp [filesUnderEntries, List.filter_append,
      filter_filesUnder_false (childPath path t.name) P t,
      filter_filesUnderEntries_false path P rest]
end

mutual
/-- On a subtree whose traversal completes, `search_in_path` sends exactly
the paths of the reachable, text-readable files whose contents contain the
query. -/
theorem search_eq_reachable_aux (path query : String) (t : FsTree)
    (h : completes t = true) :
    search_in_path path query t =
      some (((filesUnder path true t).filter fun v =>
        v.reachable && readsAsTextContaining v.readOutcome query).map FileView.path) := by
  match t with
  | .file n attempts =>
    match hr : runLoop fileReadStep attempts with
    | .settled c =>
      by_cases hc : strContains c query = true <;>
        simp [search_in_path, filesUnder, hr, readsAsTextContaining, hc]
    | .abandoned logged =>
      simp [search_in_path, filesUnder, hr, readsAsTextContaining]
    | .neverSettles =>
      simp [completes, hr] at h
  | .dir n attempts entries =>
    match hr : runLoop dirListStep attempts with
    | .settled u =>
      have he : completesEntries entries = true := by
        simpa [completes, hr] using h
      simpa [search_in_path, filesUnder, listingSettles, hr] using
        searchEntries_eq_reachable_aux path query entries he
    | .abandoned logged =>
      simpa [search_in_path, filesUnder, listingSettles, hr] using
        (filter_filesUnderEntries_false path
          (fun v => readsAsTextContaining v.readOutcome query) entries).symm
    | .neverSettles =>
      simp [completes, hr] at h
  | .entryErr e =>
    simp [search_in_path, filesUnder]

/-- List version of `search_eq_reachable_aux`. -/
theorem searchEntries_eq_reachable_aux (path query : String) (l : EntryList)
    (h : completesEntries l = true) :
    searchEntries path query l =
      some (((filesUnderEntries path true l).filter fun v =>
        v.reachable && readsAsTextContaining v.readOutcome query).map FileView.path) := by
  match l with
  | .nil => simp [searchEntries, filesUnderEntries]
  | .cons t rest =>
    have hb : completes t = true ∧ completesEntries rest = true := by
      simpa [completesEntries, Bool.and_eq_true] using h
    simp [searchEntries, filesUnderEntries, List.filter_append,
      search_eq_reachable_aux (childPath path t.name) query t hb.1,
      searchEntries_eq_reachable_aux path query rest hb.2]
end

/-- The empty pattern is a substring of every string. -/
theorem strContains_empty_pat (hay : String) : strContains hay "" = true := by
  simp [strContains]

/-- The empty string contains only the empty substring. -/
theorem strContains_of_empty_hay (q : String) : strContains "" q = true ↔ q = "" := by
  constructor
  · intro h
    apply String.ext
    simpa [strContains] using h
  · intro h
    subst h
    simp [strContains]

/-- Claim C1 as stated is refuted by a readable root directory holding a
permission-denied subdirectory that itself holds a readable file whose
contents contain the query: the traversal completes but sends nothing,
while the claim demands exactly one match line for that file. -/
theorem C1_counterexample :
    search_in_path "/root" "hello"
      (FsTree.dir "root" [Except.ok ()]
        (EntryList.cons
          (FsTree.dir "sub"
            [Except.error ⟨ErrorKind.permissionDenied, "Permission denied (os error 13)"⟩]
            (EntryList.cons (FsTree.file "a.txt" [Except.ok "hello world"]) EntryList.nil))
          EntryList.nil)) = some [] ∧
    specMatchesClaim "/root" "hello"
      (FsTree.dir "root" [Except.ok ()]
        (EntryList.cons
          (FsTree.dir "sub"
            [Except.error ⟨ErrorKind.permissionDenied, "Permission denied (os error 13)"⟩]
            (EntryList.cons (FsTree.file "a.txt" [Except.ok "hello world"]) EntryList.nil))
          EntryList.nil)) = ["/root/sub/a.txt"] ∧
    completes
      (FsTree.dir "root" [Except.ok ()]
        (EntryList.cons
          (FsTree.dir "sub"
            [Except.error ⟨ErrorKind.permissionDenied, "Permission denied (os error 13)"⟩]
            (EntryList.cons (FsTree.file "a.txt" [Except.ok "hello world"]) EntryList.nil))
          EntryList.nil)) = true := by
  exact ⟨by decide, by decide, by decide⟩

/-- C1 (amended): assuming no retry loop spins forever, the traversal
terminates and sends exactly one match line per regular, text-readable
file that is reachable — every ancestor directory's listing eventually
succeeded and the entry was yielded without an iteration error — and whose
contents contain the query; no duplicates, no omissions among those, and
no unreadable, non-UTF-8 or non-matching file is ever sent. -/
theorem C1_search_emits_reachable_matches (path query : String) (t : FsTree)
    (h : completes t = true) :
    search_in_path path query t = some (specMatchesReachable path query t) := by
  simpa [specMatchesReachable] using search_eq_reachable_aux path query t h

/-- Witness for `C1_search_emits_reachable_matches` at a concrete tree. -/
theorem C1_search_emits_reachable_matches_witness :
    completes
      (FsTree.dir "r" [Except.ok ()]
        (EntryList.cons (FsTree.file "a.txt" [Except.ok "hello world"]) EntryList.nil)) = true ∧
    search_in_path "/r" "hello"
      (FsTree.dir "r" [Except.ok ()]
        (EntryList.cons (FsTree.file "a.txt" [Except.ok "hello world"]) EntryList.nil)) =
      some (specMatchesReachable "/r" "hello"
        (FsTree.dir "r" [Except.ok ()]
          (EntryList.cons (FsTree.file "a.txt" [Except.ok "hello world"]) EntryList.nil))) :=
  ⟨by decide,
   C1_search_emits_reachable_matches "/r" "hello"
     (FsTree.dir "r" [Except.ok ()]
       (EntryList.cons (FsTree.file "a.txt" [Except.ok "hello world"]) EntryList.nil))
     (by decide)⟩

/-- Claim C2 as stated is refuted during file reading: a non-UTF-8 file
(`ErrorKind::InvalidData`) is an error kind other than resource
exhaustion, yet the program abandons the file silently — `main.rs` line
113 returns without printing — while the claim says every such kind is
logged. -/
theorem C2_counterexample :
    (fileReadStep
        (Except.error ⟨ErrorKind.invalidData, "stream did not contain valid UTF-8"⟩) :
      LoopStep String) = LoopStep.abandon false ∧
    (LoopStep.abandon false : LoopStep String) ≠ LoopStep.abandon true := by
  exact ⟨rfl, by decide⟩

/-- C2 (amended): during directory listing and file reading, an error
whose message signals handle exhaustion ("os error 24") and whose kind the
handler does not treat specially is never terminal — the task sleeps and
retries the same call until it succeeds or fails differently; every other
error abandons only that node with no retry; the abandonment prints a
diagnostic, except that non-UTF-8 content during file reading is skipped
silently. -/
theorem C2_retry_and_abandon_policy :
    (∀ e : IoError, e.kind ≠ ErrorKind.permissionDenied → containsOsError24 e.msg = true →
      (dirListStep (Except.error e) : LoopStep Unit) = LoopStep.retry) ∧
    (∀ e : IoError, e.kind = ErrorKind.other → containsOsError24 e.msg = true →
      (fileReadStep (Except.error e) : LoopStep String) = LoopStep.retry) ∧
    (∀ (α : Type) (step : Except IoError α → LoopStep α)
        (transients rest : List (Except IoError α)),
      (∀ a ∈ transients, step a = LoopStep.retry) →
      runLoop step (transients ++ rest) = runLoop step rest) ∧
    (∀ (α : Type) (step : Except IoError α → LoopStep α)
        (a : Except IoError α) (rest : List (Except IoError α)) (logged : Bool),
      step a = LoopStep.abandon logged →
      runLoop step (a :: rest) = LoopResult.abandoned logged) ∧
    (∀ e : IoError, e.kind = ErrorKind.permissionDenied →
      (dirListStep (Except.error e) : LoopStep Unit) = LoopStep.abandon true ∧
      (fileReadStep (Except.error e) : LoopStep String) = LoopStep.abandon true) ∧
    (∀ e : IoError, e.kind ≠ ErrorKind.permissionDenied → containsOsError24 e.msg = false →
      (dirListStep (Except.error e) : LoopStep Unit) = LoopStep.abandon true) ∧
    (∀ e : IoError, e.kind = ErrorKind.other → containsOsError24 e.msg = false →
      (fileReadStep (Except.error e) : LoopStep String) = LoopStep.abandon true) ∧
    (∀ e : IoError, e.kind = ErrorKind.invalidData →
      (fileReadStep (Except.error e) : LoopStep String) = LoopStep.abandon false) := by
  refine ⟨?_, ?_, ?_, ?_, ?_, ?_, ?_, ?_⟩
  · intro e hk hos
    cases e with
    | mk k m =>
      cases k with
      | permissionDenied => exact absurd rfl hk
      | invalidData => simp [dirListStep, hos]
      | other => simp [dirListStep, hos]
  · intro e hk hos
    cases e with
    | mk k m => cases hk; simp [fileReadStep, hos]
  · intro α step transients rest h
    induction transients with
    | nil => simp
    | cons a tl ih =>
      have ha : step a = LoopStep.retry := h a (by simp)
      have htl : ∀ b ∈ tl, step b = LoopStep.retry := fun b hb => h b (by simp [hb])
      simp [runLoop, ha, ih htl]
  · intro α step a rest logged h
    simp [runLoop, h]
  · intro e hk
    cases e with
    | mk k m => cases hk; exact ⟨rfl, rfl⟩
  · intro e hk hos
    cases e with
    | mk k m =>
      cases k with
      | permissionDenied => exact absurd rfl hk
      | invalidData => simp [dirListStep, hos]
      | other => simp [dirListStep, hos]
  · intro e hk hos
    cases e with
    | mk k m => cases hk; simp [fileReadStep, hos]
  · intro e hk
    cases e with
    | mk k m => cases hk; rfl

/-- Witness for `C2_retry_and_abandon_policy`: two exhaustion failures are
retried through and the loop settles on the following success. -/
theorem C2_retry_and_abandon_policy_witness :
    runLoop (fileReadStep : Except IoError String → LoopStep String)
      ([Except.error ⟨ErrorKind.other, "Too many open files (os error 24)"⟩,
        Except.error ⟨ErrorKind.other, "Too many open files (os error 24)"⟩] ++
        [Except.ok "contents"]) =
      runLoop fileReadStep [Except.ok "contents"] :=
  C2_retry_and_abandon_policy.2.2.1 String fileReadStep
    [Except.error ⟨ErrorKind.other, "Too many open files (os error 24)"⟩,
      Except.error ⟨ErrorKind.other, "Too many open files (os error 24)"⟩]
    [Except.ok "contents"] (by decide)

/-- C3: a file whose read loop settles is sent for the empty query,
whatever its contents; an empty file is sent exactly when the query is
empty; a file whose read loop abandons (permission denied, non-UTF-8,
other errors) is never sent, the empty query included. -/
theorem C3_empty_query_matches (path n query : String)
    (attempts : List (Except IoError String)) :
    (∀ c, runLoop fileReadStep attempts = LoopResult.settled c →
      search_in_path path "" (FsTree.file n attempts) = some [path]) ∧
    (runLoop fileReadStep attempts = LoopResult.settled "" →
      (search_in_path path query (FsTree.file n attempts) = some [path] ↔ query = "")) ∧
    (∀ logged, runLoop fileReadStep attempts = LoopResult.abandoned logged →
      search_in_path path "" (FsTree.file n attempts) = some []) := by
  refine ⟨?_, ?_, ?_⟩
  · intro c hr
    simp [search_in_path, hr, strContains_empty_pat]
  · intro hr
    constructor
    · intro hs
      by_cases hq : strContains "" query = true
      · exact (strContains_of_empty_hay query).mp hq
      · simp [search_in_path, hr, hq] at hs
    · intro hq
      subst hq
      simp [search_in_path, hr, strContains_empty_pat]
  · intro logged hr
    simp [search_in_path, hr]

/-- Witness for `C3_empty_query_matches`: the empty query matches an empty
readable file. -/
theorem C3_empty_query_matches_witness :
    search_in_path "/f" "" (FsTree.file "f" [Except.ok ""]) = some ["/f"] :=
  (C3_empty_query_matches "/f" "f" "unused" [Except.ok ""]).1 "" (by decide)

/-- C4: with the path or the query argument missing, `Config::parse` fails
with the corresponding usage message, `fs::canonicalize` is never invoked
(the access counter stays 0), and `main` exits with status 1 before the
channel exists or any search runs. -/
theorem C4_missing_args (canon : String → Option String) (fs : String → FsTree)
    (args : List String) (h : args.length < 3) :
    ((Config.parse canon args).1 =
        Except.error "No file path found. Usage: cargo run -- <PATH> <QUERY>" ∨
      (Config.parse canon args).1 =
        Except.error "No text to search for. Usage: cargo run -- <PATH> <QUERY>") ∧
    (Config.parse canon args).2 = 0 ∧
    mainRun canon fs args = MainOutcome.exitedEarly 1 := by
  match args with
  | [] => exact ⟨Or.inl rfl, rfl, rfl⟩
  | [a] => exact ⟨Or.inl rfl, rfl, rfl⟩
  | [a, b] => exact ⟨Or.inr rfl, rfl, rfl⟩
  | a :: b :: c :: rest => exact absurd h (by simp)

/-- Witness for `C4_missing_args`: only the program name is present. -/
theorem C4_missing_args_witness :
    ((Config.parse (fun _ => none) ["program"]).1 =
        Except.error "No file path found. Usage: cargo run -- <PATH> <QUERY>" ∨
      (Config.parse (fun _ => none) ["program"]).1 =
        Except.error "No text to search for. Usage: cargo run -- <PATH> <QUERY>") ∧
    (Config.parse (fun _ => none) ["program"]).2 = 0 ∧
    mainRun (fun _ => none) (fun _ => FsTree.entryErr ⟨ErrorKind.other, "unused"⟩)
      ["program"] = MainOutcome.exitedEarly 1 :=
  C4_missing_args (fun _ => none) (fun _ => FsTree.entryErr ⟨ErrorKind.other, "unused"⟩)
    ["program"] (by decide)

/-- C5: with both arguments present, a root that `fs::canonicalize` cannot
resolve makes `Config::parse` fail with the input-error message and `main`
exit with status 1 before any traversal; a resolvable root makes the
search run on the canonicalized path. -/
theorem C5_unresolvable_root (canon : String → Option String) (fs : String → FsTree)
    (a p q : String) (rest : List String) :
    (canon p = none →
      (Config.parse canon (a :: p :: q :: rest)).1 = Except.error "Given path is not valid" ∧
      mainRun canon fs (a :: p :: q :: rest) = MainOutcome.exitedEarly 1) ∧
    (∀ cp, canon p = some cp →
      (Config.parse canon (a :: p :: q :: rest)).1 = Except.ok ⟨cp, q⟩ ∧
      mainRun canon fs (a :: p :: q :: rest) =
        (match search_in_path cp q (fs cp) with
          | none => MainOutcome.hangs
          | some sent => MainOutcome.completed 0 sent)) := by
  constructor
  · intro hc
    exact ⟨by simp [Config.parse, hc], by simp [mainRun, Config.parse, hc]⟩
  · intro cp hc
    refine ⟨by simp [Config.parse, hc], ?_⟩
    cases hs : search_in_path cp q (fs cp) <;>
      simp [mainRun, Config.parse, hc, hs, rxIterPrints]

/-- Witness for `C5_unresolvable_root`: canonicalization fails. -/
theorem C5_unresolvable_root_witness :
    (Config.parse (fun _ => none) ["prog", "/missing", "needle"]).1 =
      Except.error "Given path is not valid" ∧
    mainRun (fun _ => none) (fun _ => FsTree.entryErr ⟨ErrorKind.other, "unused"⟩)
      ["prog", "/missing", "needle"] = MainOutcome.exitedEarly 1 :=
  (C5_unresolvable_root (fun _ => none)
    (fun _ => FsTree.entryErr ⟨ErrorKind.other, "unused"⟩) "prog" "/missing" "needle" []).1 rfl

/-- C6: when the traversal completes, every sender handle has been dropped
by the time `rx.iter()` starts — the sender was moved into the root call
and each spawned task's clone dies with the joined task — so the consumer
terminates instead of blocking, prints every sent MatchResult, and `main`
completes with status 0; an iteration with any live sender would never
terminate once the buffer is drained. -/
theorem C6_consumer_drains_exactly (canon : String → Option String) (fs : String → FsTree)
    (args : List String) (cfg : Config) (sent : List String)
    (hp : (Config.parse canon args).1 = Except.ok cfg)
    (hs : search_in_path cfg.path cfg.query (fs cfg.path) = some sent) :
    rxIterPrints 0 sent = some sent ∧
    mainRun canon fs args = MainOutcome.completed 0 sent ∧
    (∀ (live : Nat) (buffered : List String), live ≠ 0 → rxIterPrints live buffered = none) := by
  refine ⟨by simp [rxIterPrints], ?_, ?_⟩
  · simp [mainRun, hp, hs, rxIterPrints]
  · intro live buffered hl
    simp [rxIterPrints, hl]

/-- Witness for `C6_consumer_drains_exactly` at a one-file tree. -/
theorem C6_consumer_drains_exactly_witness :
    rxIterPrints 0 ["/r"] = some ["/r"] ∧
    mainRun (fun _ => some "/r") (fun _ => FsTree.file "r" [Except.ok "a needle here"])
      ["prog", "r", "needle"] = MainOutcome.completed 0 ["/r"] ∧
    (∀ (live : Nat) (buffered : List String), live ≠ 0 → rxIterPrints live buffered = none) :=
  C6_consumer_drains_exactly (fun _ => some "/r")
    (fun _ => FsTree.file "r" [Except.ok "a needle here"])
    ["prog", "r", "needle"] ⟨"/r", "needle"⟩ ["/r"] rfl (by decide)

/-- C7: a file task sends exactly one MatchResult when its read settles
and the contents contain the query, and sends nothing in every other case
— never more than one value per task; a directory task sends nothing
itself, its output being exactly what its joined children sent. -/
theorem C7_zero_or_one_send_per_task :
    (∀ (path query n : String) (attempts : List (Except IoError String)) (c : String),
      runLoop fileReadStep attempts = LoopResult.settled c → strContains c query = true →
      search_in_path path query (FsTree.file n attempts) = some [path]) ∧
    (∀ (path query n : String) (attempts : List (Except IoError String)) (c : String),
      runLoop fileReadStep attempts = LoopResult.settled c → strContains c query = false →
      search_in_path path query (FsTree.file n attempts) = some []) ∧
    (∀ (path query n : String) (attempts : List (Except IoError String)) (logged : Bool),
      runLoop fileReadStep attempts = LoopResult.abandoned logged →
      search_in_path path query (FsTree.file n attempts) = some []) ∧
    (∀ (path query n : String) (attempts : List (Except IoError String)) (sent : List String),
      search_in_path path query (FsTree.file n attempts) = some sent → sent.length ≤ 1) ∧
    (∀ (path query n : String) (attempts : List (Except IoError Unit)) (entries : EntryList),
      runLoop dirListStep attempts = LoopResult.settled () →
      search_in_path path query (FsTree.dir n attempts entries) =
        searchEntries path query entries) ∧
    (∀ (path query n : String) (attempts : List (Except IoError Unit)) (entries : EntryList)
        (logged : Bool),
      runLoop dirListStep attempts = LoopResult.abandoned logged →
      search_in_path path query (FsTree.dir n attempts entries) = some []) := by
  refine ⟨?_, ?_, ?_, ?_, ?_, ?_⟩
  · intro path query n attempts c hr hc
    simp [search_in_path, hr, hc]
  · intro path query n attempts c hr hc
    simp [search_in_path, hr, hc]
  · intro path query n attempts logged hr
    simp [search_in_path, hr]
  · intro path query n attempts sent hs
    match hr : runLoop fileReadStep attempts with
    | .settled c =>
      simp [search_in_path, hr] at hs
      by_cases hc : strContains c query = true <;> simp [hc] at hs <;> subst hs <;> simp
    | .abandoned logged =>
      simp [search_in_path, hr] at hs
      simp [hs]
    | .neverSettles =>
      simp [search_in_path, hr] at hs
  · intro path query n attempts entries hr
    simp [search_in_path, hr]
  · intro path query n attempts entries logged hr
    simp [search_in_path, hr]

/-- Witness for `C7_zero_or_one_send_per_task`: a matching readable file
sends its path once. -/
theorem C7_zero_or_one_send_per_task_witness :
    search_in_path "/d/f" "world" (FsTree.file "f" [Except.ok "hello world"]) = some ["/d/f"] :=
  C7_zero_or_one_send_per_task.1 "/d/f" "world" "f" [Except.ok "hello world"] "hello world"
    (by decide) (by decide)

/-- C8: per-node errors never change the final exit status — whenever
parsing succeeds and the traversal completes, `main` exits 0, however many
error nodes the tree holds; an entry that errors during iteration is
skipped without affecting its siblings, and a child whose subtree was
abandoned contributes nothing while its siblings' sends survive. -/
theorem C8_per_node_errors_nonfatal :
    (∀ (canon : String → Option String) (fs : String → FsTree) (args : List String)
        (cfg : Config) (sent : List String),
      (Config.parse canon args).1 = Except.ok cfg →
      search_in_path cfg.path cfg.query (fs cfg.path) = some sent →
      mainRun canon fs args = MainOutcome.completed 0 sent) ∧
    (∀ (path query : String) (e : IoError) (rest : EntryList),
      searchEntries path query (EntryList.cons (FsTree.entryErr e) rest) =
        searchEntries path query rest) ∧
    (∀ (path query : String) (t : FsTree) (rest : EntryList),
      search_in_path (childPath path t.name) query t = some [] →
      searchEntries path query (EntryList.cons t rest) = searchEntries path query rest) := by
  refine ⟨?_, ?_, ?_⟩
  · intro canon fs args cfg sent hp hs
    simp [mainRun, hp, hs, rxIterPrints]
  · intro path query e rest
    cases hrest : searchEntries path query rest <;>
      simp [searchEntries, search_in_path, hrest]
  · intro path query t rest h
    cases hrest : searchEntries path query rest <;>
      simp [searchEntries, h, hrest]

/-- Witness for `C8_per_node_errors_nonfatal`: a tree with an iteration
error and a permission-denied file still completes with exit 0 and the
sibling match is reported. -/
theorem C8_per_node_errors_nonfatal_witness :
    mainRun (fun _ => some "/r")
      (fun _ => FsTree.dir "r" [Except.ok ()]
        (EntryList.cons (FsTree.entryErr ⟨ErrorKind.other, "boom"⟩)
          (EntryList.cons (FsTree.file "a" [Except.error ⟨ErrorKind.permissionDenied, "denied"⟩])
            (EntryList.cons (FsTree.file "b" [Except.ok "a needle here"]) EntryList.nil))))
      ["prog", "r", "needle"] = MainOutcome.completed 0 ["/r/b"] :=
  C8_per_node_errors_nonfatal.1 (fun _ => some "/r")
    (fun _ => FsTree.dir "r" [Except.ok ()]
      (EntryList.cons (FsTree.entryErr ⟨ErrorKind.other, "boom"⟩)
        (EntryList.cons (FsTree.file "a" [Except.error ⟨ErrorKind.permissionDenied, "denied"⟩])
          (EntryList.cons (FsTree.file "b" [Except.ok "a needle here"]) EntryList.nil))))
    ["prog", "r", "needle"] ⟨"/r", "needle"⟩ ["/r/b"] rfl (by decide)

/-- C9: a canonicalized root that is not a directory takes the file branch
of `search_in_path`: assuming its read loop settles or abandons, `main`
completes with exit 0 and prints exactly the root path when the contents
read as text containing the query, and prints nothing otherwise. -/
theorem C9_root_is_a_file (canon : String → Option String) (fs : String → FsTree)
    (a p q : String) (rest : List String) (n cp : String)
    (attempts : List (Except IoError String))
    (hc : canon p = some cp) (hf : fs cp = FsTree.file n attempts)
    (hns : runLoop fileReadStep attempts ≠ LoopResult.neverSettles) :
    mainRun canon fs (a :: p :: q :: rest) =
      MainOutcome.completed 0
        (if readsAsTextContaining (runLoop fileReadStep attempts) q then [cp] else []) := by
  match hr : runLoop fileReadStep attempts with
  | .settled c =>
    by_cases hcq : strContains c q = true <;>
      simp [mainRun, Config.parse, hc, hf, search_in_path, hr, readsAsTextContaining,
        rxIterPrints, hcq]
  | .abandoned logged =>
    simp [mainRun, Config.parse, hc, hf, search_in_path, hr, readsAsTextContaining, rxIterPrints]
  | .neverSettles => exact absurd hr hns

/-- Witness for `C9_root_is_a_file`: the root file matches the query. -/
theorem C9_root_is_a_file_witness :
    mainRun (fun _ => some "/etc/hosts")
      (fun _ => FsTree.file "hosts" [Except.ok "localhost"]) ["prog", "hosts", "local"] =
      MainOutcome.completed 0
        (if readsAsTextContaining (runLoop fileReadStep [Except.ok "localhost"]) "local"
          then ["/etc/hosts"] else []) :=
  C9_root_is_a_file (fun _ => some "/etc/hosts")
    (fun _ => FsTree.file "hosts" [Except.ok "localhost"])
    "prog" "hosts" "local" [] "hosts" "/etc/hosts" [Except.ok "localhost"]
    rfl rfl (by decide)

/-- C10: `Config::parse` requests only three items from the argument
iterator — the program name, the path and the query — so any trailing
arguments change neither the outcome of parsing nor the parsed values. -/
theorem C10_trailing_args_ignored (canon : String → Option String)
    (a p q : String) (extra : List String) :
    Config.parse canon (a :: p :: q :: extra) = Config.parse canon [a, p, q] := by
  cases hc : canon p <;> simp [Config.parse, hc]

end RecSearch
